import Mathlib

/-!
Shallow embedding, in Lean 4, of `src/bin/balrogworker.py` (the balrogscript
repository): the content-addressed S3 publisher (`verify_copy_to_s3` /
`possible_names`), the artifact `download` check, the task-schema check
(`verify_task_schema`), and the per-entry submission dispatch of
`submit_releases`.  External libraries (boto S3, hashlib, requests,
`util.retry`, the balrog submitters) are modelled at their interface
boundary: the S3 bucket as an association list plus a concurrent-writer
oracle, the hash function and downloaded bytes as parameters, and the retry
executor from its specified contract.
-/

namespace Balrogworker

/-! ### Decimal rendering of a natural number

Python's `"{}".format(n)` renders `n` in decimal.  `toDecimal` is a
fuel-based (hence kernel-reducible) most-significant-digit-first rendering;
`natRepr n` is the decimal string of `n`.  `parseDecimal` is a verified
left inverse, giving injectivity. -/

/-- Fuel-based decimal digits of `n`, most significant first; `[]` for `0`. -/
def toDecimal : Nat → Nat → List Char
  | 0, _ => []
  | _ + 1, 0 => []
  | fuel + 1, n + 1 =>
    toDecimal fuel ((n + 1) / 10) ++ [Nat.digitChar ((n + 1) % 10)]

/-- Decimal string of a natural number, as Python's `str`/`format` renders it. -/
def natRepr (n : Nat) : String :=
  if n = 0 then "0" else ⟨toDecimal n n⟩

/-- Reads a decimal digit string back into a natural number. -/
def parseDecimal (cs : List Char) : Nat :=
  cs.foldl (fun acc c => acc * 10 + (c.toNat - 48)) 0

theorem parseDecimal_append_singleton (cs : List Char) (c : Char) :
    parseDecimal (cs ++ [c]) = parseDecimal cs * 10 + (c.toNat - 48) := by
  simp [parseDecimal, List.foldl_append]

theorem digitChar_toNat {d : Nat} (h : d < 10) :
    (Nat.digitChar d).toNat - 48 = d := by
  interval_cases d <;> rfl

theorem parseDecimal_toDecimal :
    ∀ fuel n, n ≤ fuel → parseDecimal (toDecimal fuel n) = n := by
  intro fuel
  induction fuel with
  | zero =>
    intro n hn
    have : n = 0 := Nat.le_zero.mp hn
    subst this
    rfl
  | succ f ih =>
    intro n hn
    match n with
    | 0 => rfl
    | m + 1 =>
      have hlt : (m + 1) / 10 < m + 1 := Nat.div_lt_self (Nat.succ_pos m) (by omega)
      have hdiv : (m + 1) / 10 ≤ f := by omega
      have hmod : (m + 1) % 10 < 10 := Nat.mod_lt _ (by omega)
      show parseDecimal (toDecimal f ((m + 1) / 10) ++ [Nat.digitChar ((m + 1) % 10)]) = m + 1
      rw [parseDecimal_append_singleton, ih _ hdiv, digitChar_toNat hmod]
      have := Nat.div_add_mod (m + 1) 10
      omega

theorem parseDecimal_natRepr (n : Nat) : parseDecimal (natRepr n).data = n := by
  by_cases h : n = 0
  · subst h; rfl
  · have : natRepr n = ⟨toDecimal n n⟩ := by simp [natRepr, h]
    rw [this]
    exact parseDecimal_toDecimal n n le_rfl

theorem natRepr_injective : Function.Injective natRepr := by
  intro a b h
  have := congrArg (fun s => parseDecimal s.data) h
  simpa [parseDecimal_natRepr] using this

theorem natRepr_data_ne_nil (n : Nat) : (natRepr n).data ≠ [] := by
  by_cases h : n = 0
  · subst h; simp [natRepr]
  · have hrw : natRepr n = ⟨toDecimal n n⟩ := by simp [natRepr, h]
    rw [hrw]
    match n, h with
    | m + 1, _ =>
      show toDecimal m ((m + 1) / 10) ++ [Nat.digitChar ((m + 1) % 10)] ≠ []
      simp

/-! ### `os.path.splitext` (posix)

CPython's `genericpath._splitext` with `sep = '/'`, no `altsep`,
`extsep = '.'`: find the last `/` and the last `.`; if the last dot lies
after the last separator and the basename is not entirely leading dots up
to that point, split at the dot; otherwise the extension is empty. -/

/-- Index of the last occurrence of `c` in the list scanned from position
`i`, with `best` the best index found so far (`-1` when none). -/
def rfindGo (c : Char) : List Char → Int → Int → Int
  | [], _, best => best
  | x :: xs, i, best => rfindGo c xs (i + 1) (if x = c then i else best)

/-- Python's `str.rfind`: index of the last occurrence of `c`, `-1` if absent. -/
def rfind (cs : List Char) (c : Char) : Int := rfindGo c cs 0 (-1)

/-- `os.path.splitext` for posix paths, as used by `possible_names`
(`src/bin/balrogworker.py:103`). -/
def splitext (p : String) : String × String :=
  let cs := p.data
  let sepIndex := rfind cs '/'
  let dotIndex := rfind cs '.'
  if sepIndex < dotIndex then
    if ((cs.drop (sepIndex + 1).toNat).take (dotIndex - sepIndex - 1).toNat).all
        (fun ch => ch == '.') then
      (p, "")
    else
      (⟨cs.take dotIndex.toNat⟩, ⟨cs.drop dotIndex.toNat⟩)
  else
    (p, "")

theorem splitext_data (p : String) :
    (splitext p).1.data ++ (splitext p).2.data = p.data := by
  unfold splitext
  dsimp only
  split
  · split
    · simp
    · simp [List.take_append_drop]
  · simp

/-! ### `possible_names` (`src/bin/balrogworker.py:101-105`)

`[initial_name] + ["{}-{}{}".format(prefix, n, ext) for n in range(1, amount + 1)]`
where `prefix, ext = os.path.splitext(initial_name)`. -/

/-- Candidate destination names: the initial name followed by `amount`
numbered variants with the counter inserted before the extension. -/
def possible_names (initial_name : String) (amount : Nat) : List String :=
  let se := splitext initial_name
  [initial_name] ++ (List.range' 1 amount).map
    (fun n => se.1 ++ "-" ++ natRepr n ++ se.2)

theorem string_data_append (a b : String) : (a ++ b).data = a.data ++ b.data := rfl

theorem variant_injective (stem ext : String) :
    Function.Injective (fun n => stem ++ "-" ++ natRepr n ++ ext) := by
  intro a b h
  have hd := congrArg String.data h
  simp only [string_data_append] at hd
  have h1 := List.append_cancel_right hd
  have h2 := List.append_cancel_left h1
  exact natRepr_injective (congrArg String.mk h2)

theorem initial_ne_variant (initial_name : String) (n : Nat) :
    initial_name ≠
      (splitext initial_name).1 ++ "-" ++ natRepr n ++ (splitext initial_name).2 := by
  intro h
  have hd := congrArg (fun s => s.data.length) h
  simp only [string_data_append, List.length_append] at hd
  have hsplit := congrArg List.length (splitext_data initial_name)
  simp only [List.length_append] at hsplit
  have hne := natRepr_data_ne_nil n
  have hpos : 0 < (natRepr n).data.length := List.length_pos.mpr hne
  have hdash : ("-" : String).data.length = 1 := rfl
  omega

theorem possible_names_length (initial_name : String) (amount : Nat) :
    (possible_names initial_name amount).length = amount + 1 := by
  simp [possible_names]

theorem possible_names_head (initial_name : String) (amount : Nat) :
    (possible_names initial_name amount).head? = some initial_name := by
  simp [possible_names]

theorem possible_names_nodup (initial_name : String) (amount : Nat) :
    (possible_names initial_name amount).Nodup := by
  unfold possible_names
  refine List.nodup_cons.mpr ⟨?_, ?_⟩
  · intro hmem
    obtain ⟨n, _, hn⟩ := List.mem_map.mp hmem
    exact initial_ne_variant initial_name n hn.symm
  · exact (List.nodup_range' 1 amount).map
      (variant_injective (splitext initial_name).1 (splitext initial_name).2)

theorem possible_names_get (initial_name : String) (amount i : Nat)
    (h1 : 1 ≤ i) (h2 : i ≤ amount) :
    (possible_names initial_name amount)[i]? =
      some ((splitext initial_name).1 ++ "-" ++ natRepr i ++
        (splitext initial_name).2) := by
  obtain ⟨j, rfl⟩ : ∃ j, i = j + 1 := ⟨i - 1, by omega⟩
  unfold possible_names
  rw [List.singleton_append, List.getElem?_cons_succ, List.getElem?_map,
    List.getElem?_range' 1 1 (by omega : j < amount)]
  simp [Nat.add_comm 1 j]

/-! ### The S3 blob store and `verify_copy_to_s3` (`src/bin/balrogworker.py:58-98`)

The boto bucket is modelled as an association list from names to stored
objects; `getKey` is `bucket.get_key`.  A successful
`set_contents_from_filename(dest, replace=False)` (create-if-absent) stores
the downloaded content under a store-assigned version id `freshVid`; a
concurrent writer that wins the race between our `get_key` probe and our
write is modelled by the oracle `race : String → Option S3Object` — when it
returns an object for a name found absent, our create-if-absent write
returns `None` (the boto signal for losing the race) and the racer's object
is what now sits in the bucket.  Each S3/filesystem side effect is recorded
in an event trace. -/

/-- A stored S3 object: its content bytes and its store-assigned version id. -/
structure S3Object where
  content : String
  versionId : Nat
deriving DecidableEq, Repr

/-- The bucket: an association list from object names to stored objects. -/
def Bucket := List (String × S3Object)
deriving DecidableEq, Repr

/-- The `bucket.get_key(name)` lookup. -/
def getKey : Bucket → String → Option S3Object
  | [], _ => none
  | (k, v) :: b, name => if k = name then some v else getKey b name

/-- Observable side effects of `verify_copy_to_s3`, in program order. -/
inductive Ev where
  | tmpCreate
  | downloadEv
  | sigVerify
  | read (name : String)
  | createIfAbsent (name : String) (ok : Bool)
  | setAcl (name : String) (vid : Nat)
  | tmpDelete
deriving DecidableEq, Repr

/-- Errors `verify_copy_to_s3` can raise: a MAR signature-verification
failure, or the final `RuntimeError("Cannot generate a unique name for %s",
mar_dest)`. -/
inductive PublishError where
  | signatureVerificationFailed
  | cannotGenerateUniqueName (desired : String)
deriving DecidableEq, Repr

/-- The `for name in possible_names(mar_dest, 10)` loop of
`verify_copy_to_s3` (`src/bin/balrogworker.py:68-98`): probe each candidate
name; on an absent name attempt the create-if-absent upload (continuing on a
lost race), on a present name return its pinned URL when the content hash
matches and move on otherwise; falling off the list raises the
name-exhaustion error.  A returned URL is modelled by the pair of the final
name and the pinned version id. -/
def publishProbe (hashFn : String → String) (race : String → Option S3Object)
    (freshVid : Nat) (content dest : String) :
    Bucket → List String → Except PublishError (String × Nat) × Bucket × List Ev
  | b, [] => (.error (.cannotGenerateUniqueName dest), b, [])
  | b, name :: rest =>
    match getKey b name with
    | some key =>
      if hashFn key.content = hashFn content then
        (.ok (name, key.versionId), b, [.read name])
      else
        let r := publishProbe hashFn race freshVid content dest b rest
        (r.1, r.2.1, .read name :: r.2.2)
    | none =>
      match race name with
      | some obj =>
        let r := publishProbe hashFn race freshVid content dest ((name, obj) :: b) rest
        (r.1, r.2.1, .read name :: .createIfAbsent name false :: r.2.2)
      | none =>
        (.ok (name, freshVid), (name, ⟨content, freshVid⟩) :: b,
         [.read name, .createIfAbsent name true, .setAcl name freshVid])

/-- `verify_copy_to_s3` (`src/bin/balrogworker.py:58-98`): stage the
artifact in a temp file, download it, verify its MAR signature unless
`MOZ_DISABLE_MAR_CERT_VERIFICATION` is set, then run the candidate-name
probe loop.  The downloaded bytes appear as `content`; signature validity
as the boolean `sigValid`.  The temp file is never deleted by the source on
any path, so no `Ev.tmpDelete` is ever emitted. -/
def verify_copy_to_s3 (hashFn : String → String) (race : String → Option S3Object)
    (freshVid : Nat) (mozDisableCertVerification sigValid : Bool)
    (b : Bucket) (content mar_dest : String) :
    Except PublishError (String × Nat) × Bucket × List Ev :=
  if !mozDisableCertVerification && !sigValid then
    (.error .signatureVerificationFailed, b, [.tmpCreate, .downloadEv, .sigVerify])
  else
    let r := publishProbe hashFn race freshVid content mar_dest b
      (possible_names mar_dest 10)
    (r.1, r.2.1,
      [Ev.tmpCreate, Ev.downloadEv] ++
        (if mozDisableCertVerification then [] else [Ev.sigVerify]) ++ r.2.2)

/-- The race-free store oracle: no concurrent writer ever interferes. -/
def noRace : String → Option S3Object := fun _ => none

/-- Whether the object stored under `name` (if any) collides with the local
content: present with a differing content hash. -/
def collides (hashFn : String → String) (b : Bucket) (content name : String) : Bool :=
  match getKey b name with
  | some obj => hashFn obj.content != hashFn content
  | none => false

/-- The create-if-absent write attempts recorded in a trace. -/
def writeEvents (evs : List Ev) : List Ev :=
  evs.filter fun e =>
    match e with
    | .createIfAbsent _ _ => true
    | _ => false

theorem writeEvents_cons_read (name : String) (evs : List Ev) :
    writeEvents (Ev.read name :: evs) = writeEvents evs := by
  simp [writeEvents]

/-- Outside the probed names the bucket is untouched by the probe loop. -/
theorem getKey_publishProbe_outside (hashFn : String → String)
    (race : String → Option S3Object) (freshVid : Nat) (content dest : String) :
    ∀ (ns : List String) (b : Bucket) (x : String), x ∉ ns →
      getKey (publishProbe hashFn race freshVid content dest b ns).2.1 x = getKey b x := by
  intro ns
  induction ns with
  | nil => intro b x _; rfl
  | cons name rest ih =>
    intro b x hx
    have hxname : x ≠ name := fun h => hx (h ▸ List.mem_cons_self name rest)
    have hxrest : x ∉ rest := fun h => hx (List.mem_cons_of_mem name h)
    show getKey (publishProbe hashFn race freshVid content dest b (name :: rest)).2.1 x
      = getKey b x
    unfold publishProbe
    match hk : getKey b name with
    | some key =>
      by_cases heq : hashFn key.content = hashFn content
      · simp [hk, heq]
      · simp only [hk, heq, if_false]
        exact ih b x hxrest
    | none =>
      match hr : race name with
      | some obj =>
        simp only [hk, hr]
        rw [ih ((name, obj) :: b) x hxrest]
        simp [getKey, Ne.symm hxname]
      | none =>
        simp only [hk, hr]
        simp [getKey, Ne.symm hxname]

/-- Re-running the race-free probe loop after a successful publish finds the
artifact again at the same name and version, changes nothing in the bucket,
and attempts no create-if-absent write. -/
theorem publishProbe_rerun (hashFn : String → String) (fv fv' : Nat)
    (content dest : String) :
    ∀ (ns : List String) (b b' : Bucket) (nm : String) (vid : Nat) (evs : List Ev),
      ns.Nodup →
      publishProbe hashFn noRace fv content dest b ns = (.ok (nm, vid), b', evs) →
      (publishProbe hashFn noRace fv' content dest b' ns).1 = .ok (nm, vid) ∧
      (publishProbe hashFn noRace fv' content dest b' ns).2.1 = b' ∧
      writeEvents (publishProbe hashFn noRace fv' content dest b' ns).2.2 = [] := by
  intro ns
  induction ns with
  | nil =>
    intro b b' nm vid evs _ h
    simp [publishProbe] at h
  | cons name rest ih =>
    intro b b' nm vid evs hnd h
    obtain ⟨hname, hrest⟩ := List.nodup_cons.mp hnd
    cases hgk : getKey b name with
    | some key =>
      by_cases heq : hashFn key.content = hashFn content
      · unfold publishProbe at h
        rw [hgk] at h
        simp only [heq, if_true, Prod.mk.injEq, Except.ok.injEq] at h
        obtain ⟨⟨hnm, hvid⟩, hb, _⟩ := h
        subst hnm; subst hvid; subst hb
        unfold publishProbe
        rw [hgk]
        simp [heq, writeEvents]
      · unfold publishProbe at h
        rw [hgk] at h
        simp only [heq, if_false, Prod.mk.injEq] at h
        obtain ⟨h1, h2, _⟩ := h
        have hr : publishProbe hashFn noRace fv content dest b rest =
            (.ok (nm, vid), b',
              (publishProbe hashFn noRace fv content dest b rest).2.2) := by
          rw [← h1, ← h2]
        have hkey' : getKey b' name = some key := by
          rw [← h2, getKey_publishProbe_outside hashFn noRace fv content dest rest b
            name hname, hgk]
        obtain ⟨g1, g2, g3⟩ := ih b b' nm vid _ hrest hr
        unfold publishProbe
        rw [hkey']
        simp only [heq, if_false]
        exact ⟨g1, g2, by rw [writeEvents_cons_read]; exact g3⟩
    | none =>
      unfold publishProbe at h
      rw [hgk] at h
      simp only [noRace, Prod.mk.injEq, Except.ok.injEq] at h
      obtain ⟨⟨hnm, hvid⟩, hb, _⟩ := h
      subst hnm; subst hvid; subst hb
      unfold publishProbe
      have : getKey ((name, (⟨content, fv⟩ : S3Object)) :: b) name =
          some ⟨content, fv⟩ := by simp [getKey]
      rw [this]
      simp [writeEvents]

/-- When every candidate name holds an object with a differing content hash,
the probe loop only reads each candidate, leaves the bucket unchanged, and
ends in the name-exhaustion error carrying the desired name. -/
theorem publishProbe_exhaust (hashFn : String → String)
    (race : String → Option S3Object) (fv : Nat) (content dest : String) :
    ∀ (ns : List String) (b : Bucket),
      (∀ name ∈ ns, collides hashFn b content name = true) →
      publishProbe hashFn race fv content dest b ns =
        (.error (.cannotGenerateUniqueName dest), b, ns.map Ev.read) := by
  intro ns
  induction ns with
  | nil => intro b _; rfl
  | cons name rest ih =>
    intro b hcol
    have hhead := hcol name (List.mem_cons_self name rest)
    unfold collides at hhead
    cases hgk : getKey b name with
    | none => rw [hgk] at hhead; simp at hhead
    | some obj =>
      rw [hgk] at hhead
      have hne : hashFn obj.content ≠ hashFn content := by
        simpa using hhead
      unfold publishProbe
      rw [hgk]
      simp only [hne, if_false]
      rw [ih b (fun n hn => hcol n (List.mem_cons_of_mem name hn))]
      simp

/-- The probe loop never emits a temp-file deletion event. -/
theorem publishProbe_no_tmpDelete (hashFn : String → String)
    (race : String → Option S3Object) (fv : Nat) (content dest : String) :
    ∀ (ns : List String) (b : Bucket),
      Ev.tmpDelete ∉ (publishProbe hashFn race fv content dest b ns).2.2 := by
  intro ns
  induction ns with
  | nil => intro b; simp [publishProbe]
  | cons name rest ih =>
    intro b
    unfold publishProbe
    cases hgk : getKey b name with
    | some key =>
      by_cases heq : hashFn key.content = hashFn content
      · simp [heq]
      · simp only [heq, if_false]
        intro hmem
        rcases List.mem_cons.mp hmem with h | h
        · exact absurd h (by simp)
        · exact ih b h
    | none =>
      cases hr : race name with
      | some obj =>
        simp only
        intro hmem
        rcases List.mem_cons.mp hmem with h | hmem2
        · exact absurd h (by simp)
        · rcases List.mem_cons.mp hmem2 with h | h
          · exact absurd h (by simp)
          · exact ih ((name, obj) :: b) h
      | none => simp

/-! ### `download` (`src/bin/balrogworker.py:29-49`)

The HTTP response is modelled by its chunk sequence (each chunk a byte
list, as `r.iter_content(4096)` yields) and the optional declared
`content-length` header.  The body is written chunk by chunk while
accumulating `bytes_downloaded`; a declared length that disagrees with the
accumulated count raises `IOError`. -/

/-- One download attempt: returns `()` on success, the `IOError` message on
a byte-count mismatch against a declared content length. -/
def download (chunks : List (List Nat)) (contentLength : Option Nat) :
    Except String Unit :=
  let bytes_downloaded := chunks.foldl (fun acc chunk => acc + chunk.length) 0
  match contentLength with
  | some n =>
    if bytes_downloaded ≠ n then .error "Unexpected number of bytes downloaded"
    else .ok ()
  | none => .ok ()

/-! ### The Retry Executor

`util.retry` lives in `tools/lib/python`, outside this repository's
source. -/

/-- Modelled from the spec: the Retry Executor of `util.retry` (§4.1),
whose source is not under `src/`.  `retryGo op k n` runs attempt `k` and,
on failure, up to `n` further attempts; the first success is returned and
the last error is propagated unchanged. -/
def retryGo (op : Nat → Except ε α) : Nat → Nat → Except ε α
  | k, 0 => op k
  | k, n + 1 =>
    match op k with
    | .ok a => .ok a
    | .error _ => retryGo op (k + 1) n

/-- Modelled from the spec: `retry(operation, attempts, ...)` of §4.1 runs
the operation up to `attempts` times (attempts are numbered from 1),
returning the first success or the final error.  Backoff sleeping has no
observable effect beyond the delay and is not modelled. -/
def retry (op : Nat → Except ε α) (attempts : Nat) : Except ε α :=
  retryGo op 1 (attempts - 1)

/-- A retry policy as passed at a call site: attempt budget, base sleep
seconds, and maximum sleep seconds. -/
structure RetryPolicy where
  attempts : Nat
  sleeptime : Nat
  max_sleeptime : Nat
deriving DecidableEq, Repr

/-! ### `verify_task_schema` (`src/bin/balrogworker.py:118-127`) -/

/-- The `payload` of a task definition, with the two fields
`verify_task_schema` inspects; a `none` field is one absent from the JSON
object. -/
structure TaskPayload where
  parent_task_artifacts_url : Option String
  signing_cert : Option String
deriving DecidableEq, Repr

/-- The accepted signing-certificate names (`signing_keys`). -/
def signing_keys : List String := ["nightly", "release", "dep"]

/-- `verify_task_schema`: each required field must be present in the
payload (checked in `task_reqs` order), and `signing_cert` must name one of
the known signing keys; otherwise a `KeyError` is raised. -/
def verify_task_schema (p : TaskPayload) : Except String Unit :=
  match p.parent_task_artifacts_url, p.signing_cert with
  | none, _ => .error "parent_task_artifacts_url missing from taskdef!"
  | some _, none => .error "signing_cert missing from taskdef!"
  | some _, some cert =>
    if cert ∈ signing_keys then .ok ()
    else .error (cert ++ " invalid certificate name. Specify nightly, release, or dep.")

/-! ### `submit_releases` dispatch (`src/bin/balrogworker.py:191-253`)

One manifest entry is a JSON object; the three style-discriminating fields
are optional (`none` when absent from the object), the remaining fields the
loop body reads unconditionally are kept as plain values.  The external
balrog submitters and the S3 upload are summarised by the `SubmitCall`
value describing which submitter runs, under which retry policy, and (for
nightly) under which destination names the two artifacts are published. -/

/-- A manifest entry, with the fields `submit_releases` reads. -/
structure ManifestEntry where
  previousVersion : Option String
  previousBuildNumber : Option String
  from_buildid : Option String
  to_hash : String
  to_size : Nat
  hash : String
  size : Nat
  platform : String
  appName : String
  toVersion : String
  toBuildNumber : String
  version : String
  to_buildid : String
  locale : String
  branch : String
  mar : String
  to_mar : String
deriving DecidableEq, Repr

/-- The two submission styles. -/
inductive SubmitStyle where
  | release
  | nightly
deriving DecidableEq, Repr

/-- The submission action an entry is dispatched to: which submitter, the
retry policy wrapping its `run`, and for nightly style the two S3
destination names handed to `verify_copy_to_s3`. -/
inductive SubmitCall where
  | releaseStyle (policy : RetryPolicy)
  | nightlyStyle (policy : RetryPolicy) (pMarUrl pMarDest cMarUrl cMarDest : String)
deriving DecidableEq, Repr

/-- The style of a dispatched submission. -/
def SubmitCall.style : SubmitCall → SubmitStyle
  | .releaseStyle _ => .release
  | .nightlyStyle _ _ _ _ _ => .nightly

/-- The retry policy a dispatched submission is wrapped in. -/
def SubmitCall.policy : SubmitCall → RetryPolicy
  | .releaseStyle p => p
  | .nightlyStyle p _ _ _ _ => p

/-- `"{branch}/{buildid}".format(...)` of the nightly branch. -/
def dest_prefix (e : ManifestEntry) : String :=
  e.branch ++ "/" ++ e.to_buildid

/-- The destination name of the differential artifact (`partial_mar_dest`). -/
def pMarDestOf (e : ManifestEntry) : String :=
  dest_prefix e ++ "/" ++ e.mar

/-- The destination filename of the complete artifact
(`complete_mar_filename`). -/
def cMarFilenameOf (e : ManifestEntry) : String :=
  e.appName ++ "-" ++ e.branch ++ "-" ++ e.version ++ "-" ++ e.platform ++
    "-" ++ e.locale ++ ".complete.mar"

/-- The destination name of the complete artifact (`complete_mar_dest`). -/
def cMarDestOf (e : ManifestEntry) : String :=
  dest_prefix e ++ "/" ++ cMarFilenameOf e

/-- The per-entry body of the `submit_releases` loop: release-style when
both `previousVersion` and `previousBuildNumber` are present, else
nightly-style when `from_buildid` is present and uploads are enabled
(wrapping the submitter in `retry` with `attempts=30, sleeptime=10,
max_sleeptime=60`), else `RuntimeError`.  `defaultPolicy` stands for the
retry defaults of `util.retry`, used by the release-style `retry(...)`
call, which passes no overrides. -/
def submit_entry (defaultPolicy : RetryPolicy) (uploads_enabled : Bool)
    (parent_url : String) (e : ManifestEntry) : Except String SubmitCall :=
  if e.previousVersion.isSome && e.previousBuildNumber.isSome then
    .ok (.releaseStyle defaultPolicy)
  else if e.from_buildid.isSome && uploads_enabled then
    .ok (.nightlyStyle ⟨30, 10, 60⟩ (parent_url ++ "/" ++ e.mar) (pMarDestOf e)
      e.to_mar (cMarDestOf e))
  else
    .error "Cannot determine Balrog submission style"

/-- `submit_releases`: the manifest entries are processed in order; the
first entry whose dispatch raises aborts the run. -/
def submit_releases (defaultPolicy : RetryPolicy) (uploads_enabled : Bool)
    (parent_url : String) (manifest : List ManifestEntry) :
    Except String (List SubmitCall) :=
  manifest.mapM (submit_entry defaultPolicy uploads_enabled parent_url)

/-! ### Concrete manifest entries used by witnesses and counterexamples -/

/-- A release-style manifest entry that also carries `from_buildid`. -/
def rEntry : ManifestEntry :=
  { previousVersion := some "57.0", previousBuildNumber := some "2",
    from_buildid := some "20170101000000", to_hash := "h2", to_size := 200,
    hash := "h1", size := 100, platform := "linux64", appName := "Firefox",
    toVersion := "58.0", toBuildNumber := "1", version := "58.0",
    to_buildid := "B2", locale := "en-US", branch := "mozilla-central",
    mar := "p.mar", to_mar := "https://x/c.mar" }

/-- A nightly-style manifest entry: `from_buildid` with no previous-version
fields. -/
def nEntry : ManifestEntry :=
  { rEntry with previousVersion := none, previousBuildNumber := none }

/-- An entry carrying neither style-discriminating field group. -/
def xEntry : ManifestEntry :=
  { nEntry with from_buildid := none }

/-- An entry with `previousVersion` but not `previousBuildNumber`, plus
`from_buildid`: it satisfies neither of C3's two routing conditions. -/
def c3entry : ManifestEntry :=
  { rEntry with previousBuildNumber := none }

/-! ### The claims -/

/-- C3 counterexample: `c3entry` (with uploads enabled) satisfies neither
of the claim's conditions — not both previous-version fields are present,
and the nightly condition's "no previous-version fields" fails — yet
`submit_releases`'s dispatch routes it to nightly-style submission instead
of failing with the style-classification error. -/
theorem C3_counterexample :
    ¬(c3entry.previousVersion.isSome ∧ c3entry.previousBuildNumber.isSome) ∧
    ¬(c3entry.from_buildid.isSome ∧ c3entry.previousVersion = none ∧
        c3entry.previousBuildNumber = none) ∧
    submit_entry ⟨5, 1, 2⟩ true "https://parent" c3entry =
      .ok (.nightlyStyle ⟨30, 10, 60⟩ ("https://parent" ++ "/" ++ c3entry.mar)
        (pMarDestOf c3entry) c3entry.to_mar (cMarDestOf c3entry)) :=
  ⟨by simp [c3entry, rEntry], by simp [c3entry, rEntry], rfl⟩

/-- C3 (amended): an entry with both `previousVersion` and
`previousBuildNumber` is routed to release-style submission; an entry with
`from_buildid`, no previous-version fields, and uploads enabled is routed
to nightly-style submission; and an entry failing both of the code's tests
— not both previous-version fields present, and not (`from_buildid`
present with uploads enabled) — fails with the style-classification
error. -/
theorem C3_classification (dp : RetryPolicy) (uploads : Bool)
    (parent_url : String) (e : ManifestEntry) :
    ((e.previousVersion.isSome ∧ e.previousBuildNumber.isSome) →
      submit_entry dp uploads parent_url e = .ok (.releaseStyle dp)) ∧
    ((e.from_buildid.isSome ∧ e.previousVersion = none ∧
        e.previousBuildNumber = none ∧ uploads = true) →
      submit_entry dp uploads parent_url e =
        .ok (.nightlyStyle ⟨30, 10, 60⟩ (parent_url ++ "/" ++ e.mar)
          (pMarDestOf e) e.to_mar (cMarDestOf e))) ∧
    ((¬(e.previousVersion.isSome ∧ e.previousBuildNumber.isSome) ∧
        ¬(e.from_buildid.isSome ∧ uploads = true)) →
      submit_entry dp uploads parent_url e =
        .error "Cannot determine Balrog submission style") := by
  refine ⟨?_, ?_, ?_⟩
  · rintro ⟨h1, h2⟩
    simp [submit_entry, h1, h2]
  · rintro ⟨h1, h2, h3, h4⟩
    simp [submit_entry, h1, h2, h3, h4]
  · rintro ⟨h1, h2⟩
    cases hA : (e.previousVersion.isSome && e.previousBuildNumber.isSome) with
    | true => exact absurd (by simpa using hA) h1
    | false =>
      cases hB : (e.from_buildid.isSome && uploads) with
      | true => exact absurd (by simpa using hB) h2
      | false => simp [submit_entry, hA, hB]

/-- C3 witness: the release clause at a concrete release entry and the
(amended) rejection clause at a concrete entry with neither field group. -/
theorem C3_witness :
    submit_entry ⟨5, 1, 2⟩ true "https://parent" rEntry =
      .ok (.releaseStyle ⟨5, 1, 2⟩) ∧
    submit_entry ⟨5, 1, 2⟩ true "https://parent" xEntry =
      .error "Cannot determine Balrog submission style" :=
  ⟨(C3_classification ⟨5, 1, 2⟩ true "https://parent" rEntry).1
      ⟨by decide, by decide⟩,
   (C3_classification ⟨5, 1, 2⟩ true "https://parent" xEntry).2.2
      ⟨by decide, by decide⟩⟩

/-- C4: for every initial name and probe bound N, `possible_names` returns
exactly N+1 pairwise-distinct names; the first is the initial name
unmodified and the i-th (1 ≤ i ≤ N) inserts counter i between the stem and
the extension of the initial name. -/
theorem C4_candidate_names (initial_name : String) (N : Nat) :
    (possible_names initial_name N).length = N + 1 ∧
    (possible_names initial_name N).Nodup ∧
    (possible_names initial_name N).head? = some initial_name ∧
    ∀ i, 1 ≤ i → i ≤ N →
      (possible_names initial_name N)[i]? =
        some ((splitext initial_name).1 ++ "-" ++ natRepr i ++
          (splitext initial_name).2) :=
  ⟨possible_names_length initial_name N, possible_names_nodup initial_name N,
   possible_names_head initial_name N,
   fun i h1 h2 => possible_names_get initial_name N i h1 h2⟩

/-- C4 witness: the candidate list for `"a.mar"` with N = 2. -/
theorem C4_witness :
    (possible_names "a.mar" 2).length = 3 ∧
    (possible_names "a.mar" 2).Nodup ∧
    (possible_names "a.mar" 2).head? = some "a.mar" ∧
    (possible_names "a.mar" 2)[2]? = some "a-2.mar" :=
  ⟨(C4_candidate_names "a.mar" 2).1, (C4_candidate_names "a.mar" 2).2.1,
   (C4_candidate_names "a.mar" 2).2.2.1,
   ((C4_candidate_names "a.mar" 2).2.2.2 2 (by decide) (by decide)).trans
     (by decide)⟩

/-- C6: every entry dispatched to nightly-style submission has its
submitter call wrapped in the retry executor with attempts = 30, base
sleep = 10 seconds, and maximum sleep = 60 seconds. -/
theorem C6_nightly_retry_budget (dp : RetryPolicy) (uploads : Bool)
    (parent_url : String) (e : ManifestEntry) (call : SubmitCall)
    (h : submit_entry dp uploads parent_url e = .ok call)
    (hstyle : call.style = .nightly) :
    call.policy = ⟨30, 10, 60⟩ := by
  unfold submit_entry at h
  split at h
  · rw [Except.ok.injEq] at h
    subst h
    simp [SubmitCall.style] at hstyle
  · split at h
    · rw [Except.ok.injEq] at h
      subst h
      rfl
    · simp at h

/-- C6 witness: the nightly dispatch of a concrete entry carries the
30/10/60 retry policy. -/
theorem C6_witness :
    (SubmitCall.nightlyStyle ⟨30, 10, 60⟩ ("https://parent" ++ "/" ++ nEntry.mar)
      (pMarDestOf nEntry) nEntry.to_mar (cMarDestOf nEntry)).policy =
      ⟨30, 10, 60⟩ :=
  C6_nightly_retry_budget ⟨5, 1, 2⟩ true "https://parent" nEntry _ rfl rfl

/-- C7: a declared content length disagreeing with the bytes written makes
that download attempt fail with the IOError; under the wrapping retry
executor a subsequent clean attempt still succeeds overall. -/
theorem C7_download_mismatch (chunks : List (List Nat)) (n : Nat)
    (h : chunks.foldl (fun acc chunk => acc + chunk.length) 0 ≠ n) :
    download chunks (some n) = .error "Unexpected number of bytes downloaded" ∧
    ∀ good : List (List Nat),
      good.foldl (fun acc chunk => acc + chunk.length) 0 = n →
      retry (fun k => if k = 1 then download chunks (some n)
        else download good (some n)) 2 = .ok () := by
  constructor
  · simp [download, h]
  · intro good hg
    simp [retry, retryGo, download, h, hg]

/-- C7 witness: three bytes arrive against a declared length of four; the
attempt fails, and a clean retry attempt succeeds. -/
theorem C7_witness :
    download [[1, 2], [3]] (some 4) =
      .error "Unexpected number of bytes downloaded" ∧
    ∀ good : List (List Nat),
      good.foldl (fun acc chunk => acc + chunk.length) 0 = 4 →
      retry (fun k => if k = 1 then download [[1, 2], [3]] (some 4)
        else download good (some 4)) 2 = .ok () :=
  C7_download_mismatch [[1, 2], [3]] 4 (by decide)

/-- C8: task-schema verification succeeds exactly when the payload carries
both `parent_task_artifacts_url` and `signing_cert` and the certificate
names one of nightly, release, dep; any other payload fails with the fatal
schema error. -/
theorem C8_task_schema (p : TaskPayload) :
    verify_task_schema p = .ok () ↔
      p.parent_task_artifacts_url.isSome = true ∧
      ∃ cert, p.signing_cert = some cert ∧
        (cert = "nightly" ∨ cert = "release" ∨ cert = "dep") := by
  rcases hu : p.parent_task_artifacts_url with _ | u <;>
    rcases hc : p.signing_cert with _ | cert <;>
      simp [verify_task_schema, hu, hc, signing_keys]
  tauto

/-- C10: an entry carrying both style-discriminating field groups — both
previous-version fields and `from_buildid` — is routed to release-style
submission: the release test is checked first, so the both-shapes case is
never a classification error. -/
theorem C10_release_precedence (dp : RetryPolicy) (uploads : Bool)
    (parent_url : String) (e : ManifestEntry)
    (h1 : e.previousVersion.isSome = true)
    (h2 : e.previousBuildNumber.isSome = true)
    (_h3 : e.from_buildid.isSome = true) :
    submit_entry dp uploads parent_url e = .ok (.releaseStyle dp) := by
  simp [submit_entry, h1, h2]

/-- C10 witness: `rEntry` carries all three fields and is routed
release-style even with uploads disabled. -/
theorem C10_witness :
    submit_entry ⟨5, 1, 2⟩ false "https://parent" rEntry =
      .ok (.releaseStyle ⟨5, 1, 2⟩) :=
  C10_release_precedence ⟨5, 1, 2⟩ false "https://parent" rEntry rfl rfl rfl

theorem writeEvents_append (a c : List Ev) :
    writeEvents (a ++ c) = writeEvents a ++ writeEvents c := by
  simp [writeEvents, List.filter_append]

theorem writeEvents_map_read (ns : List String) :
    writeEvents (ns.map Ev.read) = [] := by
  induction ns with
  | nil => rfl
  | cons n rest ih =>
    simp only [List.map_cons, writeEvents_cons_read]
    exact ih

/-- With the signature valid, `verify_copy_to_s3` runs the probe loop and
prepends the staging/download/verification events to its trace. -/
theorem verify_copy_sig_ok (hashFn : String → String)
    (race : String → Option S3Object) (fv : Nat) (dis : Bool) (b : Bucket)
    (content mar_dest : String) :
    verify_copy_to_s3 hashFn race fv dis true b content mar_dest =
      ((publishProbe hashFn race fv content mar_dest b
          (possible_names mar_dest 10)).1,
       (publishProbe hashFn race fv content mar_dest b
          (possible_names mar_dest 10)).2.1,
       [Ev.tmpCreate, Ev.downloadEv] ++
         (if dis then [] else [Ev.sigVerify]) ++
         (publishProbe hashFn race fv content mar_dest b
            (possible_names mar_dest 10)).2.2) := by
  cases dis <;> rfl

/-- C1: after a successful race-free publish of `content` under desired
name `mar_dest`, publishing the identical content again under the same
desired name returns the same pinned URL (same final name and version id),
leaves the store unchanged, and performs zero create-if-absent writes —
the second call only reads existing objects and compares content hashes. -/
theorem C1_publish_idempotent (hashFn : String → String) (fv fv' : Nat)
    (dis dis' : Bool) (b b1 : Bucket) (content mar_dest nm : String)
    (vid : Nat) (evs1 : List Ev)
    (h1 : verify_copy_to_s3 hashFn noRace fv dis true b content mar_dest =
      (.ok (nm, vid), b1, evs1)) :
    (verify_copy_to_s3 hashFn noRace fv' dis' true b1 content mar_dest).1 =
      .ok (nm, vid) ∧
    (verify_copy_to_s3 hashFn noRace fv' dis' true b1 content mar_dest).2.1 =
      b1 ∧
    writeEvents
      (verify_copy_to_s3 hashFn noRace fv' dis' true b1 content
        mar_dest).2.2 = [] := by
  rw [verify_copy_sig_ok] at h1
  simp only [Prod.mk.injEq] at h1
  obtain ⟨hp1, hp2, _⟩ := h1
  have hr : publishProbe hashFn noRace fv content mar_dest b
      (possible_names mar_dest 10) =
      (.ok (nm, vid), b1,
        (publishProbe hashFn noRace fv content mar_dest b
          (possible_names mar_dest 10)).2.2) := by
    rw [← hp1, ← hp2]
  obtain ⟨g1, g2, g3⟩ := publishProbe_rerun hashFn fv fv' content mar_dest
    (possible_names mar_dest 10) b b1 nm vid _
    (possible_names_nodup mar_dest 10) hr
  rw [verify_copy_sig_ok]
  refine ⟨g1, g2, ?_⟩
  rw [writeEvents_append, writeEvents_append, g3]
  cases dis' <;> simp [writeEvents]

/-- C1 witness: content `"c"` already published under `"a.mar"` at version
7 by a race-free first publish over the empty bucket; the second identical
publish finds it at the same pinned URL without writing. -/
theorem C1_witness :
    (verify_copy_to_s3 id noRace 8 false true
        [("a.mar", ⟨"c", 7⟩)] "c" "a.mar").1 = .ok ("a.mar", 7) ∧
    (verify_copy_to_s3 id noRace 8 false true
        [("a.mar", ⟨"c", 7⟩)] "c" "a.mar").2.1 = [("a.mar", ⟨"c", 7⟩)] ∧
    writeEvents (verify_copy_to_s3 id noRace 8 false true
        [("a.mar", ⟨"c", 7⟩)] "c" "a.mar").2.2 = [] :=
  C1_publish_idempotent id 7 8 false false [] [("a.mar", ⟨"c", 7⟩)] "c"
    "a.mar" "a.mar" 7
    [.tmpCreate, .downloadEv, .sigVerify, .read "a.mar",
      .createIfAbsent "a.mar" true, .setAcl "a.mar" 7] rfl

/-- C2: when each of the 11 candidate names already holds an object whose
content hash differs from the local content's hash, the publish fails with
the name-exhaustion error carrying the desired name, leaves the store
unchanged, and performs no create-if-absent writes. -/
theorem C2_name_exhaustion (hashFn : String → String)
    (race : String → Option S3Object) (fv : Nat) (dis : Bool) (b : Bucket)
    (content mar_dest : String)
    (hcol : ∀ name ∈ possible_names mar_dest 10,
      collides hashFn b content name = true) :
    (verify_copy_to_s3 hashFn race fv dis true b content mar_dest).1 =
      .error (.cannotGenerateUniqueName mar_dest) ∧
    (verify_copy_to_s3 hashFn race fv dis true b content mar_dest).2.1 = b ∧
    writeEvents
      (verify_copy_to_s3 hashFn race fv dis true b content mar_dest).2.2 =
      [] := by
  have hex := publishProbe_exhaust hashFn race fv content mar_dest
    (possible_names mar_dest 10) b hcol
  rw [verify_copy_sig_ok, hex]
  refine ⟨rfl, rfl, ?_⟩
  rw [writeEvents_append, writeEvents_append, writeEvents_map_read]
  cases dis <;> simp [writeEvents]

/-- C2 witness: every candidate name for `"a.mar"` holds content `"x"`
while the local content is `"y"`. -/
theorem C2_witness :
    (verify_copy_to_s3 id noRace 3 false true
      ((possible_names "a.mar" 10).map fun nm => (nm, ⟨"x", 0⟩))
      "y" "a.mar").1 = .error (.cannotGenerateUniqueName "a.mar") ∧
    (verify_copy_to_s3 id noRace 3 false true
      ((possible_names "a.mar" 10).map fun nm => (nm, ⟨"x", 0⟩))
      "y" "a.mar").2.1 =
      ((possible_names "a.mar" 10).map fun nm => (nm, ⟨"x", 0⟩)) ∧
    writeEvents (verify_copy_to_s3 id noRace 3 false true
      ((possible_names "a.mar" 10).map fun nm => (nm, ⟨"x", 0⟩))
      "y" "a.mar").2.2 = [] :=
  C2_name_exhaustion id noRace 3 false _ "y" "a.mar" (by decide)

/-- C5: when a candidate name probes absent but the create-if-absent write
loses the race to a concurrent writer, the loop records the failed write
and continues with the remaining candidate names against the store now
holding the racer's object — losing the race is never fatal by itself. -/
theorem C5_race_lost_not_fatal (hashFn : String → String)
    (race : String → Option S3Object) (fv : Nat) (content dest name : String)
    (rest : List String) (b : Bucket) (obj : S3Object)
    (habs : getKey b name = none) (hrace : race name = some obj) :
    (publishProbe hashFn race fv content dest b (name :: rest)).1 =
      (publishProbe hashFn race fv content dest ((name, obj) :: b) rest).1 ∧
    (publishProbe hashFn race fv content dest b (name :: rest)).2.2 =
      Ev.read name :: Ev.createIfAbsent name false ::
        (publishProbe hashFn race fv content dest
          ((name, obj) :: b) rest).2.2 := by
  simp [publishProbe, habs, hrace]

/-- C5 witness: the desired name probes absent, a concurrent writer wins
the race, and the loop moves on to the numbered variant. -/
theorem C5_witness :
    (publishProbe id (fun nm => if nm = "a.mar" then some ⟨"z", 3⟩ else none)
        7 "c" "a.mar" [] ("a.mar" :: ["a-1.mar"])).1 =
      (publishProbe id (fun nm => if nm = "a.mar" then some ⟨"z", 3⟩ else none)
        7 "c" "a.mar" [("a.mar", ⟨"z", 3⟩)] ["a-1.mar"]).1 ∧
    (publishProbe id (fun nm => if nm = "a.mar" then some ⟨"z", 3⟩ else none)
        7 "c" "a.mar" [] ("a.mar" :: ["a-1.mar"])).2.2 =
      Ev.read "a.mar" :: Ev.createIfAbsent "a.mar" false ::
        (publishProbe id
          (fun nm => if nm = "a.mar" then some ⟨"z", 3⟩ else none)
          7 "c" "a.mar" [("a.mar", ⟨"z", 3⟩)] ["a-1.mar"]).2.2 :=
  C5_race_lost_not_fatal id
    (fun nm => if nm = "a.mar" then some ⟨"z", 3⟩ else none)
    7 "c" "a.mar" "a.mar" ["a-1.mar"] [] ⟨"z", 3⟩ rfl rfl

/-- C9: the staged temp file is never deleted: no exit path of
`verify_copy_to_s3` — the signature-verification-failure path included —
emits a temp-file deletion event, so the required release-on-every-exit
does not hold of the code. -/
theorem C9_tmpfile_never_deleted (hashFn : String → String)
    (race : String → Option S3Object) (fv : Nat) (dis sig : Bool)
    (b : Bucket) (content mar_dest : String) :
    Ev.tmpDelete ∉
      (verify_copy_to_s3 hashFn race fv dis sig b content mar_dest).2.2 := by
  unfold verify_copy_to_s3
  split
  · simp
  · dsimp only
    intro hmem
    rcases List.mem_append.mp hmem with h | h
    · rcases List.mem_append.mp h with h2 | h2
      · simp at h2
      · cases dis <;> simp at h2
    · exact publishProbe_no_tmpDelete hashFn race fv content mar_dest
        (possible_names mar_dest 10) b h

end Balrogworker
